import Mathlib

/-!
Verification development for the RATP traffic dashboard (`src/app.py`).

The file shallowly embeds the data pipeline of `app.py`:
header normalization, the keyword-based schema mapper (`get_col` and
the `mapping`/`final_cols` dictionaries), the field normalizer for the
`Trafic`, `Ville` and `Reseau` columns, the row filter of `main`, and
the per-chart aggregation steps (`plot_sunburst`, `plot_top_bar`,
`plot_donut`) together with the `idxmax`-based Top-Station KPI.

Modelling conventions:
* a raw CSV cell is `Option String` (`none` is a pandas `NaN`);
* a normalized cell is `Val` (null, string, or integer — `Trafic`
  becomes an integer column, `astype(int)`);
* a missing or unreadable source file (the `os.path.exists` guard and
  the bare `except` around `pd.read_csv`) is the `none` input of
  `load_data`, which yields the empty table, so no exception escapes;
* string routines (`lower`, `strip`, `title`, `replace`, whitespace
  stripping, substring tests) are written out on `List Char`; they agree
  with Python on ASCII letters and on already-lowercase accented
  letters, which covers every literal the pipeline and the claims use;
* `pd.to_numeric(errors="coerce")` is modelled on optionally-signed
  integer literals (everything else coerces to the `fillna(0)` value);
  decimal and scientific forms are not needed by any claim.
-/

namespace MetroRER

/-- A normalized table cell: null, a string, or an integer. -/
inductive Val where
  | vnull : Val
  | vstr : String → Val
  | vint : Int → Val
deriving DecidableEq, Repr

/-- A raw table as read by `pd.read_csv`: a header row and data rows of
optional strings (`none` is a missing value / NaN). -/
structure RawTable where
  headers : List String
  rows : List (List (Option String))
deriving DecidableEq, Repr

/-- A table after `load_data`: renamed headers and normalized cells. -/
structure Table where
  headers : List String
  rows : List (List Val)
deriving DecidableEq, Repr

/-- Python `k.startswith`-style check on char lists: does the second
list start with the first? -/
def startsWithL : List Char → List Char → Bool
  | [], _ => true
  | _ :: _, [] => false
  | a :: as, b :: bs => a = b && startsWithL as bs

/-- Occurrence test for `k in c` (Python substring containment):
`containsSubL k s` is true iff `k` occurs contiguously in `s`. -/
def containsSubL (k : List Char) : List Char → Bool
  | [] => k.isEmpty
  | c :: rest => startsWithL k (c :: rest) || containsSubL k rest

/-- Python `k in c` on strings. -/
def strContainsSub (c k : String) : Bool :=
  containsSubL k.data c.data

/-- Python `str.strip()`: drop whitespace from both ends. -/
def trimL (cs : List Char) : List Char :=
  ((cs.dropWhile Char.isWhitespace).reverse.dropWhile Char.isWhitespace).reverse

/-- Header normalization of `load_data`:
`c.lower().strip().replace(' ', '_')`. -/
def normHeader (s : String) : String :=
  ⟨(trimL (s.data.map Char.toLower)).map (fun c => if c = ' ' then '_' else c)⟩

/-- The schema mapper `get_col(keys)`: first column whose (normalized)
name contains one of the keywords. -/
def get_col (cols : List String) (keys : List String) : Option String :=
  cols.find? (fun c => keys.any (fun k => strContainsSub c k))

/-- The `mapping` dict of `load_data`, in its insertion order. -/
def mappingOf (cols : List String) : List (String × Option String) :=
  [("Reseau", get_col cols ["reseau", "réseau"]),
   ("Station", get_col cols ["station", "nom"]),
   ("Trafic", get_col cols ["trafic", "validations"]),
   ("Ville", get_col cols ["ville", "commune"]),
   ("Arr", get_col cols ["arrondissement"])]

/-- Python-dict insertion `d[k] = v`: overwrite in place if the key is
present, else append (insertion order preserved). -/
def dinsert : List (String × String) → String → String → List (String × String)
  | [], k, v => [(k, v)]
  | p :: rest, k, v => if p.1 = k then (k, v) :: rest else p :: dinsert rest k v

/-- One step of building the rename dict from a `(field, header?)`
entry: a matched header is inserted as `header ↦ field`, an unmatched
field is skipped (the `if v` of the comprehension). -/
def claimStep (d : List (String × String)) (p : String × Option String) :
    List (String × String) :=
  match p.2 with
  | some v => dinsert d v p.1
  | none => d

/-- The rename dict `final_cols = {v: k for k, v in mapping.items() if v}`:
built by inserting `header ↦ field` field-by-field, so a later field
overwrites an earlier one that claimed the same header. -/
def final_cols (cols : List String) : List (String × String) :=
  (mappingOf cols).foldl claimStep []

/-- The last entry of a `(field, header?)` list whose header is `c`,
as the field's name: the field that the Python-dict inversion leaves
in charge of header `c`. -/
def lastClaim (entries : List (String × Option String)) (c : String) : Option String :=
  match entries with
  | [] => none
  | e :: rest =>
      match lastClaim rest c with
      | some k => some k
      | none => if e.2 = some c then some e.1 else none

/-- `df.rename(columns=final_cols)` on a single column name: renamed if
the dict holds it, otherwise unchanged. -/
def renameCol (cols : List String) (c : String) : String :=
  match (final_cols cols).lookup c with
  | some k => k
  | none => c

/-- Remove every whitespace character (the regex `\s+` → `""` step of
the Trafic cleaning). -/
def stripWS (s : String) : String :=
  ⟨s.data.filter (fun c => !c.isWhitespace)⟩

/-- Decimal value of a digit list. -/
def digitsVal (ds : List Char) : Nat :=
  ds.foldl (fun a c => 10 * a + (c.toNat - 48)) 0

/-- Parse a non-empty all-digit list, else `none`. -/
def parseDigits (ds : List Char) : Option Nat :=
  if ds.isEmpty then none
  else if ds.all (fun c => c.isDigit) then some (digitsVal ds) else none

/-- `pd.to_numeric(s, errors="coerce").fillna(0).astype(int)` on one
value, restricted to optionally-minus-signed integer literals; any
other text coerces to NaN and hence to the fallback `0`. -/
def parseIntCoerce (s : String) : Int :=
  match s.data with
  | '-' :: ds =>
      match parseDigits ds with
      | some n => -(n : Int)
      | none => 0
  | ds =>
      match parseDigits ds with
      | some n => (n : Int)
      | none => 0

/-- `astype(str)` on one cell: pandas renders NaN as the string "nan". -/
def cellStr (c : Option String) : String :=
  c.getD "nan"

/-- The whole Trafic normalization of one cell:
`astype(str)` → strip all whitespace → numeric coercion with `0` fallback. -/
def trafNorm (c : Option String) : Int :=
  parseIntCoerce (stripWS (cellStr c))

/-- Helper for `str.title()`: the boolean tracks whether the previous
character was a letter. -/
def titleAux : Bool → List Char → List Char
  | _, [] => []
  | prev, c :: cs =>
      (if c.isAlpha then (if prev then c.toLower else c.toUpper) else c)
        :: titleAux c.isAlpha cs

/-- Python `str.title()`. -/
def strTitle (s : String) : String :=
  ⟨titleAux false s.data⟩

/-- Ville normalization: `fillna("Inconnue").str.title()`. -/
def villeNorm (c : Option String) : String :=
  strTitle (c.getD "Inconnue")

/-- Worker for `replaceSubL`, structurally recursive on a fuel bound:
with `fuel = s.length` the zero-fuel arm is unreachable for a non-empty
pattern, because each step consumes at least one character. -/
def replaceSubAux (pat rep : List Char) : Nat → List Char → List Char
  | _, [] => []
  | 0, s => s
  | fuel + 1, c :: rest =>
      if pat ≠ [] ∧ startsWithL pat (c :: rest) = true then
        rep ++ replaceSubAux pat rep fuel (List.drop pat.length (c :: rest))
      else
        c :: replaceSubAux pat rep fuel rest

/-- Replace every occurrence of `pat` by `rep` (Python `str.replace`,
left to right, non-overlapping). -/
def replaceSubL (pat rep s : List Char) : List Char :=
  replaceSubAux pat rep s.length s

/-- Reseau normalization:
`fillna("Autre").str.replace("Metro", "Métro")`. -/
def reseauNorm (c : Option String) : String :=
  ⟨replaceSubL "Metro".data "Métro".data (c.getD "Autre").data⟩

/-- Normalize one cell according to its (renamed) column: the three
`if '…' in df.columns` blocks of `load_data`; other columns pass
through. -/
def normCell (h : String) (c : Option String) : Val :=
  if h = "Trafic" then Val.vint (trafNorm c)
  else if h = "Ville" then Val.vstr (villeNorm c)
  else if h = "Reseau" then Val.vstr (reseauNorm c)
  else
    match c with
    | none => Val.vnull
    | some s => Val.vstr s

/-- `load_data`: `none` input stands for a missing file or a failed
`pd.read_csv` (both return `pd.DataFrame()`, the empty table); on a
read table it normalizes headers, renames them through `final_cols`,
and normalizes each cell according to its renamed column. -/
def load_data (input : Option RawTable) : Table :=
  match input with
  | none => ⟨[], []⟩
  | some raw =>
      let cols := raw.headers.map normHeader
      let newCols := cols.map (renameCol cols)
      ⟨newCols, raw.rows.map (fun r => List.zipWith normCell newCols r)⟩

/-- A row of the canonical table as consumed by `main` and the plot
functions (all four columns present and normalized). -/
structure Row where
  Reseau : String
  Station : String
  Trafic : Int
  Ville : String
deriving DecidableEq, Repr

/-- The filter stage of `main`:
`df_viz = df[df["Reseau"].isin(sel_res)]` and then, only when the city
selection is non-empty (Python truthiness), the city restriction. -/
def filter_rows (df : List Row) (sel_res sel_city : List String) : List Row :=
  let v := df.filter (fun r => sel_res.contains r.Reseau)
  if sel_city.isEmpty then v
  else v.filter (fun r => sel_city.contains r.Ville)

/-- Descending-Trafic comparison used to model
`sort_values("Trafic", ascending=False)` and `nlargest`. -/
def trafDesc (a b : Row) : Prop :=
  b.Trafic ≤ a.Trafic

instance : DecidableRel trafDesc := fun a b =>
  inferInstanceAs (Decidable (b.Trafic ≤ a.Trafic))

instance : IsTotal Row trafDesc :=
  ⟨fun a b => le_total b.Trafic a.Trafic⟩

instance : IsTrans Row trafDesc :=
  ⟨fun _ _ _ hab hbc => le_trans hbc hab⟩

/-- The source rows of the sunburst chart:
`df.sort_values("Trafic", ascending=False).head(100)`. -/
def sunburst_rows (df : List Row) : List Row :=
  (List.insertionSort trafDesc df).take 100

/-- The rows of the Top-15 bar chart: `df.nlargest(15, "Trafic")`. -/
def top_bar_rows (df : List Row) : List Row :=
  (List.insertionSort trafDesc df).take 15

/-- The donut aggregation `df.groupby("Reseau")["Trafic"].sum()`:
one `(network, total)` pair per distinct network, keys sorted as pandas
does. -/
def donut_rows (df : List Row) : List (String × Int) :=
  let keys := List.insertionSort (fun a b : String => a ≤ b) (df.map Row.Reseau).dedup
  keys.map (fun k => (k, ((df.filter (fun r => r.Reseau = k)).map Row.Trafic).sum))

/-- `df["Trafic"].idxmax()` resolved to the row it selects: pandas
returns the first index attaining the maximum, so the fold keeps the
current best unless a strictly larger value appears. -/
def idxmax_row : List Row → Option Row
  | [] => none
  | r :: rs => some (rs.foldl (fun best x => if best.Trafic < x.Trafic then x else best) r)

/-- The Top-Station KPI of `main`:
`top_s = df_viz.loc[df_viz["Trafic"].idxmax()] if not df_viz.empty else None`
and the metric shows `top_s["Station"]` or the placeholder `"-"`. -/
def top_station (df : List Row) : String :=
  match idxmax_row df with
  | none => "-"
  | some r => r.Station

/-- Claim C3: the load pipeline maps the raw row with headers
`Réseau="Metro"`, `Station="Nation"`, `Trafic (Validations)="1 200 000"`,
`Ville="paris"` to the canonical record
`Network="Métro"`, `Station="Nation"`, `Traffic=1200000`, `City="Paris"`. -/
theorem C3_scenario_normalizes :
    load_data (some ⟨["Réseau", "Station", "Trafic (Validations)", "Ville"],
        [[some "Metro", some "Nation", some "1 200 000", some "paris"]]⟩) =
      ⟨["Reseau", "Station", "Trafic", "Ville"],
        [[Val.vstr "Métro", Val.vstr "Nation", Val.vint 1200000, Val.vstr "Paris"]]⟩ := by
  decide

/-- Claim C4: a missing, unreadable or undecodable source file (the
`none` input of `load_data`) yields a table with zero rows and zero
columns; `load_data` is a total function, so no exception escapes. -/
theorem C4_missing_source_empty :
    load_data none = ⟨[], []⟩ ∧
      (load_data none).rows.length = 0 ∧ (load_data none).headers.length = 0 :=
  ⟨rfl, rfl, rfl⟩

/-- Claim C9: for every successfully read raw table, the canonical
table has exactly as many rows as the raw table — renaming and field
normalization substitute values but never drop or add a row. -/
theorem C9_row_count_preserved (raw : RawTable) :
    (load_data (some raw)).rows.length = raw.rows.length := by
  simp [load_data]

/-- Claim C1, counterexample: on the raw table with the single column
`trafic` and single value `"-5"`, the normalized Traffic value is the
negative integer `-5`, so Traffic is not always non-negative. -/
theorem C1_negative_survives :
    (load_data (some ⟨["trafic"], [[some "-5"]]⟩)).rows = [[Val.vint (-5)]] ∧
      (-5 : Int) < 0 := by
  constructor
  · decide
  · decide

/-- Claim C2, counterexample: the header `station_du_reseau` matches
the keyword sets of both Network (`reseau`) and Station (`station`),
and it is renamed to `Station` — the LAST matching field in the fixed
order — not to `Reseau` as the first-field-wins tie-break claims. -/
theorem C2_first_field_wins_refuted :
    get_col ["station_du_reseau"] ["reseau", "réseau"] = some "station_du_reseau" ∧
    get_col ["station_du_reseau"] ["station", "nom"] = some "station_du_reseau" ∧
    renameCol ["station_du_reseau"] "station_du_reseau" = "Station" ∧
    ("Station" : String) ≠ "Reseau" := by
  decide

/-- Claim C5: every row of the filter-stage output has its Network in
the network allow-list and, when the city allow-list is non-empty, its
City in the city allow-list; the output is a subsequence of the input
(order preserved, no row mutated). -/
theorem C5_filter_correct (df : List Row) (sel_res sel_city : List String) :
    (∀ r ∈ filter_rows df sel_res sel_city,
        r.Reseau ∈ sel_res ∧ (sel_city ≠ [] → r.Ville ∈ sel_city)) ∧
      (filter_rows df sel_res sel_city).Sublist df := by
  unfold filter_rows
  by_cases hc : sel_city.isEmpty = true
  · rw [if_pos hc]
    refine ⟨fun r hr => ⟨?_, fun hne => absurd (List.isEmpty_iff.mp hc) hne⟩,
      List.filter_sublist df⟩
    have h1 := List.of_mem_filter hr
    simpa using h1
  · rw [if_neg hc]
    refine ⟨fun r hr => ?_, (List.filter_sublist _).trans (List.filter_sublist df)⟩
    rcases List.mem_filter.mp hr with ⟨hr1, hq⟩
    have hp := List.of_mem_filter hr1
    exact ⟨by simpa using hp, fun _ => by simpa using hq⟩

/-- Witness for C5 at a concrete table and allow-lists. -/
theorem C5_filter_correct_witness :
    (⟨"Métro", "Nation", 5, "Paris"⟩ : Row).Reseau ∈ ["Métro"] ∧
      (⟨"Métro", "Nation", 5, "Paris"⟩ : Row).Ville ∈ ["Paris"] ∧
      (filter_rows [⟨"Métro", "Nation", 5, "Paris"⟩] ["Métro"] ["Paris"]).Sublist
        [⟨"Métro", "Nation", 5, "Paris"⟩] :=
  ⟨((C5_filter_correct [⟨"Métro", "Nation", 5, "Paris"⟩] ["Métro"] ["Paris"]).1
      ⟨"Métro", "Nation", 5, "Paris"⟩ (by decide)).1,
   ((C5_filter_correct [⟨"Métro", "Nation", 5, "Paris"⟩] ["Métro"] ["Paris"]).1
      ⟨"Métro", "Nation", 5, "Paris"⟩ (by decide)).2 (by decide),
   (C5_filter_correct [⟨"Métro", "Nation", 5, "Paris"⟩] ["Métro"] ["Paris"]).2⟩

/-- Taking a length-bounded head of the descending-Trafic sort: the
taken rows are at most `n`, all come from the input, and together with
the dropped remainder they are a permutation of the input in which
every dropped row's Trafic is at most every taken row's Trafic. -/
theorem sortTake_spec (df : List Row) (n : Nat) :
    ((List.insertionSort trafDesc df).take n).length ≤ n ∧
      (∀ r ∈ (List.insertionSort trafDesc df).take n, r ∈ df) ∧
      df.Perm ((List.insertionSort trafDesc df).take n
        ++ (List.insertionSort trafDesc df).drop n) ∧
      ∀ x ∈ (List.insertionSort trafDesc df).take n,
        ∀ y ∈ (List.insertionSort trafDesc df).drop n, y.Trafic ≤ x.Trafic := by
  have hperm : (List.insertionSort trafDesc df).Perm df :=
    List.perm_insertionSort trafDesc df
  refine ⟨?_, ?_, ?_, ?_⟩
  · rw [List.length_take]; exact min_le_left _ _
  · intro r hr
    exact hperm.mem_iff.mp (List.mem_of_mem_take hr)
  · rw [List.take_append_drop]
    exact hperm.symm
  · have hsort : List.Sorted trafDesc (List.insertionSort trafDesc df) :=
      List.sorted_insertionSort trafDesc df
    have hpw : List.Pairwise trafDesc
        ((List.insertionSort trafDesc df).take n
          ++ (List.insertionSort trafDesc df).drop n) := by
      rw [List.take_append_drop]
      exact hsort
    exact fun x hx y hy => (List.pairwise_append.mp hpw).2.2 x hx y hy

/-- Claim C7: the Top-15 bar-chart rows are at most 15, each is a row
of the filtered input, and they are the rows with the largest Traffic:
the input is a permutation of the selection plus a remainder whose
every row has Traffic at most that of every selected row. -/
theorem C7_top15_largest (df : List Row) :
    (top_bar_rows df).length ≤ 15 ∧
      (∀ r ∈ top_bar_rows df, r ∈ df) ∧
      ∃ rest : List Row, df.Perm (top_bar_rows df ++ rest) ∧
        ∀ x ∈ top_bar_rows df, ∀ y ∈ rest, y.Trafic ≤ x.Trafic := by
  obtain ⟨h1, h2, h3, h4⟩ := sortTake_spec df 15
  exact ⟨h1, h2, _, h3, h4⟩

/-- Witness for C7 at a concrete one-row table. -/
theorem C7_top15_largest_witness :
    (top_bar_rows [(⟨"Métro", "Nation", 5, "Paris"⟩ : Row)]).length ≤ 15 ∧
      (⟨"Métro", "Nation", 5, "Paris"⟩ : Row)
        ∈ [(⟨"Métro", "Nation", 5, "Paris"⟩ : Row)] :=
  ⟨(C7_top15_largest [⟨"Métro", "Nation", 5, "Paris"⟩]).1,
   (C7_top15_largest [⟨"Métro", "Nation", 5, "Paris"⟩]).2.1
      ⟨"Métro", "Nation", 5, "Paris"⟩ (by decide)⟩

/-- Claim C8: the sunburst aggregate is computed from at most 100
source rows, each a row of the filtered input, and they are the rows
with the highest Traffic: the input is a permutation of the selection
plus a remainder whose every row has Traffic at most that of every
selected row. -/
theorem C8_sunburst_cap (df : List Row) :
    (sunburst_rows df).length ≤ 100 ∧
      (∀ r ∈ sunburst_rows df, r ∈ df) ∧
      ∃ rest : List Row, df.Perm (sunburst_rows df ++ rest) ∧
        ∀ x ∈ sunburst_rows df, ∀ y ∈ rest, y.Trafic ≤ x.Trafic := by
  obtain ⟨h1, h2, h3, h4⟩ := sortTake_spec df 100
  exact ⟨h1, h2, _, h3, h4⟩

/-- Witness for C8 at a concrete one-row table. -/
theorem C8_sunburst_cap_witness :
    (sunburst_rows [(⟨"RER", "Châtelet", 9, "Paris"⟩ : Row)]).length ≤ 100 ∧
      (⟨"RER", "Châtelet", 9, "Paris"⟩ : Row)
        ∈ [(⟨"RER", "Châtelet", 9, "Paris"⟩ : Row)] :=
  ⟨(C8_sunburst_cap [⟨"RER", "Châtelet", 9, "Paris"⟩]).1,
   (C8_sunburst_cap [⟨"RER", "Châtelet", 9, "Paris"⟩]).2.1
      ⟨"RER", "Châtelet", 9, "Paris"⟩ (by decide)⟩

/-- The row kept by the `idxmax` fold is always one of the candidates. -/
theorem foldl_best_mem (rs : List Row) : ∀ r : Row,
    rs.foldl (fun best x => if best.Trafic < x.Trafic then x else best) r ∈ r :: rs := by
  induction rs with
  | nil => intro r; simp
  | cons x xs ih =>
      intro r
      rw [List.foldl_cons]
      have h := ih (if r.Trafic < x.Trafic then x else r)
      rcases List.mem_cons.mp h with h1 | h1
      · rw [h1]
        by_cases hx : r.Trafic < x.Trafic
        · simp [hx]
        · simp [hx]
      · exact List.mem_cons_of_mem _ (List.mem_cons_of_mem _ h1)

/-- Claim C10: on an empty filtered view the Top-Station KPI is the
placeholder `"-"` (the `idxmax` lookup is never evaluated), and on a
non-empty view it is the Station of an actual row, so the KPI never
raises. -/
theorem C10_top_station_placeholder :
    top_station [] = "-" ∧
      ∀ df : List Row, df ≠ [] → ∃ r ∈ df, top_station df = r.Station := by
  refine ⟨rfl, ?_⟩
  intro df hdf
  cases df with
  | nil => exact absurd rfl hdf
  | cons r rs =>
      refine ⟨rs.foldl (fun best x => if best.Trafic < x.Trafic then x else best) r,
        foldl_best_mem rs r, ?_⟩
      rfl

/-- Witness for C10: the empty view shows the placeholder, a concrete
one-row view shows that row's Station. -/
theorem C10_top_station_placeholder_witness :
    top_station [] = "-" ∧
      top_station [(⟨"Métro", "Nation", 5, "Paris"⟩ : Row)] = "Nation" := by
  refine ⟨C10_top_station_placeholder.1, ?_⟩
  obtain ⟨r, hr, he⟩ :=
    C10_top_station_placeholder.2 [⟨"Métro", "Nation", 5, "Paris"⟩] (by decide)
  have hr1 : r = ⟨"Métro", "Nation", 5, "Paris"⟩ := by simpa using hr
  rw [he, hr1]

/-- Pointwise sum distributes over a mapped list of integers. -/
theorem sum_map_add_int (l : List String) (f g : String → Int) :
    (l.map fun k => f k + g k).sum = (l.map f).sum + (l.map g).sum := by
  induction l with
  | nil => simp
  | cons k ks ih =>
      simp only [List.map_cons, List.sum_cons, ih]
      ring

/-- Over a duplicate-free key list containing `x`, the sum of the
indicator `if x = k then v else 0` is exactly `v`. -/
theorem sum_map_indicator (keys : List String) (x : String) (v : Int)
    (hnd : keys.Nodup) (hx : x ∈ keys) :
    (keys.map fun k => if x = k then v else 0).sum = v := by
  induction keys with
  | nil => cases hx
  | cons k ks ih =>
      rw [List.map_cons, List.sum_cons]
      rcases List.nodup_cons.mp hnd with ⟨hk, hnd'⟩
      rcases List.mem_cons.mp hx with h1 | h1
      · subst h1
        rw [if_pos rfl]
        have hzero : (ks.map fun k' => if x = k' then v else 0).sum = 0 := by
          apply List.sum_eq_zero
          intro y hy
          rcases List.mem_map.mp hy with ⟨k', hk', rfl⟩
          rw [if_neg]
          intro he
          exact hk (he ▸ hk')
        rw [hzero, add_zero]
      · have hne : x ≠ k := fun he => hk (he ▸ h1)
        rw [if_neg hne, ih hnd' h1, zero_add]

/-- Regrouping is lossless: summing, over a duplicate-free key list
that covers every row's network, the per-key Trafic totals gives the
total Trafic of the table. -/
theorem groupsum_total (keys : List String) (hnd : keys.Nodup) :
    ∀ l : List Row, (∀ r ∈ l, r.Reseau ∈ keys) →
      (keys.map fun k =>
          ((l.filter fun r => r.Reseau = k).map Row.Trafic).sum).sum
        = (l.map Row.Trafic).sum := by
  intro l
  induction l with
  | nil =>
      intro _
      simp
  | cons r t ih =>
      intro hcov
      have hcovt : ∀ x ∈ t, x.Reseau ∈ keys :=
        fun x hx => hcov x (List.mem_cons_of_mem r hx)
      have hr : r.Reseau ∈ keys := hcov r (List.mem_cons_self r t)
      have hstep : (keys.map fun k =>
            (((r :: t).filter fun x => x.Reseau = k).map Row.Trafic).sum)
          = keys.map fun k => (if r.Reseau = k then r.Trafic else 0)
              + ((t.filter fun x => x.Reseau = k).map Row.Trafic).sum := by
        apply List.map_congr_left
        intro k _
        by_cases hk : r.Reseau = k
        · simp [List.filter_cons, hk]
        · simp [List.filter_cons, hk]
      rw [hstep, sum_map_add_int, sum_map_indicator keys r.Reseau r.Trafic hnd hr,
        ih hcovt, List.map_cons, List.sum_cons]

/-- Claim C6: the donut (share-of-total) aggregation sums Traffic
losslessly — its totals sum to the Traffic total of its input — and
its key column is a permutation of the distinct Network values of the
input (exactly one row per distinct Network). -/
theorem C6_donut_lossless (df : List Row) :
    ((donut_rows df).map Prod.snd).sum = (df.map Row.Trafic).sum ∧
      ((donut_rows df).map Prod.fst).Perm (df.map Row.Reseau).dedup := by
  unfold donut_rows
  have hperm : (List.insertionSort (fun a b : String => a ≤ b)
      (df.map Row.Reseau).dedup).Perm (df.map Row.Reseau).dedup :=
    List.perm_insertionSort _ _
  constructor
  · rw [List.map_map]
    have hsum := (hperm.map fun k =>
      ((df.filter fun r => r.Reseau = k).map Row.Trafic).sum).sum_eq
    refine hsum.trans ?_
    exact groupsum_total _ (List.nodup_dedup _) df
      (fun r hr => List.mem_dedup.mpr (List.mem_map_of_mem Row.Reseau hr))
  · rw [List.map_map]
    have hid : (Prod.fst ∘ fun k : String =>
        (k, ((df.filter fun r => r.Reseau = k).map Row.Trafic).sum)) = id := rfl
    rw [hid, List.map_id]
    exact hperm

/-- The numeric coercion yields a non-negative integer whenever the
text does not begin with a minus sign. -/
theorem parseIntCoerce_nonneg (s : String) (h : s.data.head? ≠ some '-') :
    0 ≤ parseIntCoerce s := by
  unfold parseIntCoerce
  split
  · rename_i ds heq
    exact absurd (by rw [heq]; rfl) h
  · split
    · rename_i hne ds n heq
      simp
    · rename_i hne ds heq
      exact le_refl 0

/-- A pair of the zip of a list with its `zipWith` image comes from an
element of the second list, transformed at the pair's own key. -/
theorem mem_zip_zipWith {α β γ : Type _} (f : α → β → γ) :
    ∀ (l1 : List α) (l2 : List β) (a : α) (c : γ),
      (a, c) ∈ l1.zip (List.zipWith f l1 l2) → ∃ b ∈ l2, c = f a b := by
  intro l1
  induction l1 with
  | nil => intro l2 a c h; simp at h
  | cons x xs ih =>
      intro l2 a c h
      cases l2 with
      | nil => simp at h
      | cons y ys =>
          rw [List.zipWith_cons_cons, List.zip_cons_cons] at h
          rcases List.mem_cons.mp h with h1 | h1
          · injection h1 with ha hc
            subst ha
            subst hc
            exact ⟨y, List.mem_cons_self y ys, rfl⟩
          · obtain ⟨b, hb, hc⟩ := ih ys a c h1
            exact ⟨b, List.mem_cons_of_mem y hb, hc⟩

/-- The Trafic branch of the per-cell normalizer. -/
theorem normCell_trafic (c : Option String) :
    normCell "Trafic" c = Val.vint (trafNorm c) := rfl

/-- The normalized Trafic value is non-negative whenever the cell's
whitespace-stripped text does not begin with a minus sign (a missing
cell passes through `astype(str)` as `"nan"` and coerces to `0`). -/
theorem trafNorm_nonneg (c : Option String)
    (h : (stripWS (cellStr c)).data.head? ≠ some '-') :
    0 ≤ trafNorm c :=
  parseIntCoerce_nonneg _ h

/-- Claim C1 (amended): after normalization every Traffic value is an
integer — never null and never containing whitespace, since the cell
holds an `Int` parsed from the whitespace-stripped text — and it is
non-negative whenever no raw cell's whitespace-stripped text begins
with a minus sign; a leading minus parses through as a negative value. -/
theorem C1_trafic_integer (raw : RawTable)
    (hneg : ∀ row ∈ raw.rows, ∀ c ∈ row,
        (stripWS (cellStr c)).data.head? ≠ some '-') :
    ∀ row ∈ (load_data (some raw)).rows,
      ∀ p ∈ (load_data (some raw)).headers.zip row,
        p.1 = "Trafic" → ∃ n : Int, p.2 = Val.vint n ∧ 0 ≤ n := by
  intro row hrow p hp hT
  simp only [load_data] at hrow hp
  rcases List.mem_map.mp hrow with ⟨r0, hr0, rfl⟩
  obtain ⟨h1, v⟩ := p
  simp only at hT
  subst hT
  obtain ⟨b, hb, rfl⟩ := mem_zip_zipWith normCell _ r0 _ _ hp
  exact ⟨trafNorm b, normCell_trafic b, trafNorm_nonneg b (hneg r0 hr0 b hb)⟩

/-- Witness for C1 (amended) at a concrete one-cell table whose raw
text carries an interior thousands space. -/
theorem C1_trafic_integer_witness :
    (load_data (some ⟨["trafic"], [[some "1 200"]]⟩)).rows = [[Val.vint 1200]] ∧
      (0 : Int) ≤ 1200 := by
  refine ⟨by decide, ?_⟩
  obtain ⟨n, hn, hnn⟩ :=
    C1_trafic_integer ⟨["trafic"], [[some "1 200"]]⟩ (by decide)
      [Val.vint 1200] (by decide) ("Trafic", Val.vint 1200) (by decide) rfl
  have he : (1200 : Int) = n := by simpa using hn
  rw [he]
  exact hnn

/-- Looking up the key just inserted by `dinsert` finds the new value. -/
theorem lookup_dinsert_self (d : List (String × String)) (k v : String) :
    (dinsert d k v).lookup k = some v := by
  induction d with
  | nil => simp [dinsert, List.lookup]
  | cons p rest ih =>
      by_cases h : p.1 = k
      · simp [dinsert, h, List.lookup]
      · have hbf : (k == p.1) = false := beq_eq_false_iff_ne.mpr (Ne.symm h)
        simp [dinsert, h, List.lookup, hbf, ih]

/-- `dinsert` leaves the binding of every other key unchanged. -/
theorem lookup_dinsert_ne (d : List (String × String)) (k v c : String)
    (hne : c ≠ k) :
    (dinsert d k v).lookup c = d.lookup c := by
  have hbf : (c == k) = false := beq_eq_false_iff_ne.mpr hne
  induction d with
  | nil => simp [dinsert, List.lookup, hbf]
  | cons p rest ih =>
      by_cases h : p.1 = k
      · simp [dinsert, h, List.lookup, hbf]
      · simp [dinsert, h, List.lookup, ih]

/-- Folding the dict-building step over a `(field, header?)` list: the
binding of header `c` is the LAST field that claimed `c`, and the
initial dict's binding when no field claims it. -/
theorem lookup_foldl_claimStep (c : String) :
    ∀ (entries : List (String × Option String)) (d : List (String × String)),
      (entries.foldl claimStep d).lookup c
        = match lastClaim entries c with
          | some k => some k
          | none => d.lookup c := by
  intro entries
  induction entries with
  | nil => intro d; simp [lastClaim]
  | cons e rest ih =>
      intro d
      rw [List.foldl_cons]
      cases he : e.2 with
      | none =>
          have hstep : claimStep d e = d := by
            unfold claimStep
            rw [he]
          rw [hstep, ih d]
          cases hl : lastClaim rest c <;> simp [lastClaim, he, hl]
      | some v =>
          have hstep : claimStep d e = dinsert d v e.1 := by
            unfold claimStep
            rw [he]
          rw [hstep, ih (dinsert d v e.1)]
          by_cases hv : v = c
          · subst hv
            cases hl : lastClaim rest v <;>
              simp [lastClaim, he, hl, lookup_dinsert_self]
          · cases hl : lastClaim rest c <;>
              simp [lastClaim, he, hl, hv,
                lookup_dinsert_ne d v e.1 c (fun hcv => hv hcv.symm)]

/-- Claim C2 (amended): a raw header is claimed by at most one
canonical field (the rename dict binds it to a single field), and when
several fields' keyword sets match the same header, the LAST matching
field in the fixed order Network, Station, Traffic, City, District is
the one that keeps it — the dict inversion lets later fields overwrite
earlier claimants. -/
theorem C2_last_field_claims (cols : List String) (c k : String)
    (h : lastClaim (mappingOf cols) c = some k) :
    renameCol cols c = k ∧
      ∀ k1 k2, (final_cols cols).lookup c = some k1 →
        (final_cols cols).lookup c = some k2 → k1 = k2 := by
  have hl : (final_cols cols).lookup c = some k := by
    unfold final_cols
    rw [lookup_foldl_claimStep c (mappingOf cols) [], h]
  refine ⟨?_, ?_⟩
  · unfold renameCol
    rw [hl]
  · intro k1 k2 h1 h2
    rw [h1] at h2
    exact Option.some.inj h2

/-- Witness for C2 (amended): the header matched by both Network and
Station keywords is renamed to `Station`, the last claimant. -/
theorem C2_last_field_claims_witness :
    renameCol ["station_du_reseau"] "station_du_reseau" = "Station" :=
  (C2_last_field_claims ["station_du_reseau"] "station_du_reseau" "Station"
    (by decide)).1

end MetroRER
